import Mathlib

/-!
Verification of the MovieFlix caching API client (`js/Api.mjs`), favorites
store (`js/Favorites.mjs`) and view-state controller (`js/App.mjs`).

The browser pieces are embedded shallowly: `localStorage` is an association
list threaded explicitly, `Date.now()` and the network outcome are explicit
inputs, `Math.floor(Math.random() * 10)` is a `Fin 10` input, and thrown
exceptions are `Except` results.
-/

namespace MovieFlix

/-- A JSON value, as produced by `JSON.parse` and consumed by
`JSON.stringify`. The cache envelope's `data` field and a successful response
body are arbitrary JSON. -/
inductive Json where
  | null
  | jbool (b : Bool)
  | jnum (n : Int)
  | jstr (s : String)
  | jarr (elems : List Json)
  | jobj (fields : List (String × Json))

/-- Classification of the string stored under a cache key, by what
`fetchWithCache` (Api.mjs lines 64–81) does with it:
`env data timestamp` — `JSON.parse` yields an envelope `{data, timestamp}`
with a numeric timestamp, so the freshness comparison is meaningful;
`nonEnv` — `JSON.parse` succeeds but there is no numeric `timestamp` field,
so `now - item.timestamp` is `NaN`, the freshness test is false and the entry
is removed as stale;
`corrupt` — `JSON.parse` throws (the falsy empty string, which skips the
whole cached branch, behaves the same way and is folded in here). -/
inductive CVal where
  | env (data : Json) (timestamp : Int)
  | nonEnv
  | corrupt

/-- `localStorage.getItem key`: the stored value, `none` for `null`. -/
def getItem (store : List (String × CVal)) (key : String) : Option CVal :=
  (store.find? (fun kv => kv.1 == key)).map (fun kv => kv.2)

/-- `localStorage.setItem key v`: overwrite in place, or append a new entry. -/
def setItem (store : List (String × CVal)) (key : String) (v : CVal) :
    List (String × CVal) :=
  if (store.find? (fun kv => kv.1 == key)).isSome then
    store.map (fun kv => if kv.1 == key then (key, v) else kv)
  else
    store ++ [(key, v)]

/-- `localStorage.removeItem key`: delete the entry under `key`. -/
def removeItem (store : List (String × CVal)) (key : String) :
    List (String × CVal) :=
  store.filter (fun kv => kv.1 != key)

/-- Outcome of one `fetch` of a URL: an OK response with its parsed body, or a
non-OK response carrying the HTTP status and the `status_message` field of its
error body (`none` when the body is not JSON or has no such field). -/
inductive NetResult (α : Type) where
  | ok (body : α)
  | notOk (status : Nat) (statusMessage : Option String)

/-- The message thrown by `fetchWithCache` on a non-OK response (Api.mjs
lines 88–93): `errorData.status_message || "HTTP error! status: ..."`; an
absent or empty (falsy) `status_message` falls back to the generic text. -/
def httpErrorMessage (status : Nat) (statusMessage : Option String) : String :=
  match statusMessage with
  | some m => if m = "" then "HTTP error! status: " ++ toString status else m
  | none => "HTTP error! status: " ++ toString status

/-- The network-and-write tail of `fetchWithCache` (Api.mjs lines 86–108),
run when there was no usable cached entry. `writeTime` is the `Date.now()`
taken when the new envelope is written; `quotaExceeded` means
`localStorage.setItem` threw (swallowed, caching is best-effort). Returns the
result handed to the caller, the updated store, and the number of network
requests performed. -/
def fetchAndStore (cacheKey : String) (store : List (String × CVal))
    (net : NetResult Json) (writeTime : Int) (quotaExceeded : Bool) :
    Except String Json × List (String × CVal) × Nat :=
  match net with
  | .notOk status msg => (.error (httpErrorMessage status msg), store, 1)
  | .ok data =>
      let newStore :=
        if quotaExceeded then store
        else setItem store cacheKey (.env data writeTime)
      (.ok data, newStore, 1)

/-- `fetchWithCache` (Api.mjs lines 58–109). `now` is `Date.now()` at the
freshness check. A fresh envelope is returned with no network call; a stale
envelope (or a parseable non-envelope) is removed before fetching; a corrupt
entry is left in place (the `catch` only logs) and the fetch proceeds. -/
def fetchWithCache (cacheKey : String) (cacheDurationInHours : Nat)
    (store : List (String × CVal)) (now : Int) (net : NetResult Json)
    (writeTime : Int) (quotaExceeded : Bool) :
    Except String Json × List (String × CVal) × Nat :=
  let cacheDuration : Int := (cacheDurationInHours : Int) * 60 * 60 * 1000
  match getItem store cacheKey with
  | some (.env data timestamp) =>
      if now - timestamp < cacheDuration then
        (.ok data, store, 0)
      else
        fetchAndStore cacheKey (removeItem store cacheKey) net writeTime
          quotaExceeded
  | some .nonEnv =>
      fetchAndStore cacheKey (removeItem store cacheKey) net writeTime
        quotaExceeded
  | some .corrupt =>
      fetchAndStore cacheKey store net writeTime quotaExceeded
  | none =>
      fetchAndStore cacheKey store net writeTime quotaExceeded

/-- After `removeItem`, the key is absent. -/
theorem getItem_removeItem_self (store : List (String × CVal)) (key : String) :
    getItem (removeItem store key) key = none := by
  induction store with
  | nil => rfl
  | cons kv rest ih =>
      by_cases h : kv.1 == key
      · simp [removeItem, getItem, h, ih]
      · simp [removeItem, getItem, h, ih]

/-- After `setItem`, the key holds the written value. -/
theorem getItem_setItem_self (store : List (String × CVal)) (key : String)
    (v : CVal) : getItem (setItem store key v) key = some v := by
  unfold setItem
  by_cases h : (store.find? (fun kv => kv.1 == key)).isSome
  · simp only [h, if_true]
    induction store with
    | nil => simp [List.find?] at h
    | cons kv rest ih =>
        by_cases hk : kv.1 == key
        · simp [getItem, List.find?, hk]
        · simp only [List.find?, hk] at h
          simpa [getItem, List.find?, hk] using ih h
  · simp only [h, if_false]
    induction store with
    | nil => simp [getItem, List.find?]
    | cons kv rest ih =>
        by_cases hk : kv.1 == key
        · simp [List.find?, hk] at h
        · simp only [List.find?, hk] at h
          simpa [getItem, List.find?, hk] using ih h

/-- C1: for a cache key whose stored entry parses as the `{data, timestamp}`
envelope and whose age `now - timestamp` is strictly below the freshness
duration, `fetchWithCache` returns the stored data, performs no network
request, and leaves the store unchanged. -/
theorem fetchWithCache_fresh_hit (cacheKey : String) (hours : Nat)
    (store : List (String × CVal)) (now writeTime : Int) (net : NetResult Json)
    (quotaExceeded : Bool) (data : Json) (ts : Int)
    (hfound : getItem store cacheKey = some (.env data ts))
    (hfresh : now - ts < (hours : Int) * 60 * 60 * 1000) :
    fetchWithCache cacheKey hours store now net writeTime quotaExceeded
      = (.ok data, store, 0) := by
  unfold fetchWithCache
  rw [hfound]
  simp [hfresh]

/-- Witness for C1: a concrete fresh hit under the genres key. -/
theorem fetchWithCache_fresh_hit_witness :
    fetchWithCache "tmdb_genres" 24 [("tmdb_genres", .env (.jnum 7) 1000)]
      2000 (.notOk 500 none) 2000 false
      = (.ok (.jnum 7), [("tmdb_genres", .env (.jnum 7) 1000)], 0) := by
  exact fetchWithCache_fresh_hit "tmdb_genres" 24 _ 2000 2000 _ false
    (.jnum 7) 1000 rfl (by norm_num)

/-- C2: for a cache key whose envelope is stale, `fetchWithCache` discards
the stale entry, performs exactly one network request, and on success writes
a new envelope whose timestamp is the write time (the entry's timestamp is
overwritten, never refreshed on read); on a failed request the entry stays
discarded. Stated with the cache write not hitting the storage quota. -/
theorem fetchWithCache_stale_refetch (cacheKey : String) (hours : Nat)
    (store : List (String × CVal)) (now writeTime : Int) (net : NetResult Json)
    (data : Json) (ts : Int)
    (hfound : getItem store cacheKey = some (.env data ts))
    (hstale : ¬ now - ts < (hours : Int) * 60 * 60 * 1000) :
    (fetchWithCache cacheKey hours store now net writeTime false).2.2 = 1 ∧
    (∀ body, net = .ok body →
      fetchWithCache cacheKey hours store now net writeTime false
        = (.ok body,
           setItem (removeItem store cacheKey) cacheKey (.env body writeTime),
           1) ∧
      getItem (fetchWithCache cacheKey hours store now net writeTime
          false).2.1 cacheKey = some (.env body writeTime)) ∧
    (∀ status msg, net = .notOk status msg →
      fetchWithCache cacheKey hours store now net writeTime false
        = (.error (httpErrorMessage status msg), removeItem store cacheKey,
           1)) := by
  have hfw : fetchWithCache cacheKey hours store now net writeTime false
      = fetchAndStore cacheKey (removeItem store cacheKey) net writeTime
          false := by
    unfold fetchWithCache
    rw [hfound]
    simp [hstale]
  refine ⟨?_, ?_, ?_⟩
  · rw [hfw]
    cases net <;> simp [fetchAndStore]
  · intro body hnet
    subst hnet
    rw [hfw]
    simp [fetchAndStore, getItem_setItem_self]
  · intro status msg hnet
    subst hnet
    rw [hfw]
    simp [fetchAndStore]

/-- Witness for C2: a stale trending entry is refetched and rewritten with
the write-time timestamp. -/
theorem fetchWithCache_stale_refetch_witness :
    fetchWithCache "tmdb_trending" 1 [("tmdb_trending", .env (.jnum 1) 0)]
      3600000 (.ok (.jnum 2)) 3600001 false
      = (.ok (.jnum 2), [("tmdb_trending", .env (.jnum 2) 3600001)], 1) := by
  have h := fetchWithCache_stale_refetch "tmdb_trending" 1
    [("tmdb_trending", .env (.jnum 1) 0)] 3600000 3600001 (.ok (.jnum 2))
    (.jnum 1) 0 rfl (by norm_num)
  exact (h.2.1 (.jnum 2) rfl).1

/-- C3 counterexample: a corrupt (unparseable) cache entry is not discarded.
With the same failing network outcome, the corrupt entry is still in the
store afterwards, while starting from a true cache miss the key stays
absent — so the operation's effect on the store is not identical to a miss
and the entry is not removed. -/
theorem fetchWithCache_corrupt_kept :
    (fetchWithCache "k" 1 [("k", CVal.corrupt)] 0 (.notOk 404 none) 0
        false).2.1 = [("k", CVal.corrupt)] ∧
    (fetchWithCache "k" 1 [] 0 (.notOk 404 none) 0 false).2.1 = [] ∧
    ([("k", CVal.corrupt)] : List (String × CVal)) ≠ [] := by
  refine ⟨rfl, rfl, ?_⟩
  intro h
  exact absurd h (by simp)

/-- C3 amended: a corrupt cache entry never raises to the caller — the
returned value and the number of network calls are exactly those of a cache
miss, and any error comes from the network step itself — but the corrupt
entry is not removed from the store: it is only overwritten if the network
fetch succeeds (and the quota allows), and remains in place otherwise. -/
theorem fetchWithCache_corrupt_as_miss (cacheKey : String) (hours : Nat)
    (store : List (String × CVal)) (now writeTime : Int) (net : NetResult Json)
    (quotaExceeded : Bool)
    (hcorrupt : getItem store cacheKey = some .corrupt) :
    (fetchWithCache cacheKey hours store now net writeTime quotaExceeded).1
      = (fetchWithCache cacheKey hours (removeItem store cacheKey) now net
          writeTime quotaExceeded).1 ∧
    (fetchWithCache cacheKey hours store now net writeTime quotaExceeded).2.2
      = (fetchWithCache cacheKey hours (removeItem store cacheKey) now net
          writeTime quotaExceeded).2.2 ∧
    (fetchWithCache cacheKey hours store now net writeTime
        quotaExceeded).2.2 = 1 ∧
    (∀ e, (fetchWithCache cacheKey hours store now net writeTime
        quotaExceeded).1 = .error e →
      ∃ status msg, net = .notOk status msg ∧ e = httpErrorMessage status msg) ∧
    (∀ body, net = .ok body → quotaExceeded = false →
      getItem (fetchWithCache cacheKey hours store now net writeTime
          quotaExceeded).2.1 cacheKey = some (.env body writeTime)) := by
  have hfw : fetchWithCache cacheKey hours store now net writeTime
      quotaExceeded
      = fetchAndStore cacheKey store net writeTime quotaExceeded := by
    unfold fetchWithCache
    rw [hcorrupt]
  have hmiss : fetchWithCache cacheKey hours (removeItem store cacheKey) now
      net writeTime quotaExceeded
      = fetchAndStore cacheKey (removeItem store cacheKey) net writeTime
          quotaExceeded := by
    unfold fetchWithCache
    rw [getItem_removeItem_self]
  refine ⟨?_, ?_, ?_, ?_, ?_⟩
  · rw [hfw, hmiss]
    cases net <;> simp [fetchAndStore]
  · rw [hfw, hmiss]
    cases net <;> simp [fetchAndStore]
  · rw [hfw]
    cases net <;> simp [fetchAndStore]
  · intro e he
    rw [hfw] at he
    cases net with
    | ok body => simp [fetchAndStore] at he
    | notOk status msg =>
        simp [fetchAndStore] at he
        exact ⟨status, msg, rfl, he.symm⟩
  · intro body hnet hq
    subst hnet
    subst hq
    rw [hfw]
    simp [fetchAndStore, getItem_setItem_self]

/-- Witness for C3's amended theorem: a concrete corrupt entry, failing
network — same returned error and call count as the miss case. -/
theorem fetchWithCache_corrupt_as_miss_witness :
    (fetchWithCache "k" 1 [("k", CVal.corrupt)] 0 (.notOk 404 none) 0
        false).1
      = (fetchWithCache "k" 1 (removeItem [("k", CVal.corrupt)] "k") 0
          (.notOk 404 none) 0 false).1 := by
  exact (fetchWithCache_corrupt_as_miss "k" 1 [("k", CVal.corrupt)] 0 0
    (.notOk 404 none) false rfl).1

/-- The fields of a TMDB movie object read by the controller. `popularity`
and `vote_average` are JS numbers, modelled as integers; `release_date` is
modelled by the epoch value `new Date(release_date).getTime()`, so the
comparator subtraction is integer subtraction. -/
structure Movie where
  id : Nat
  title : String
  popularity : Int
  vote_average : Int
  release_date : Int
deriving DecidableEq

/-- The parsed body of a list endpoint (`discover`, `search`):
`{ results: [...] }`. -/
structure ListBody where
  results : List Movie

/-- `fetchDirect` (Api.mjs lines 188–195): the non-cached fetch used by
discover and search. On a non-OK response it throws the generic HTTP-status
message without reading the response body; on success it returns
`data.results`. -/
def fetchDirect (net : NetResult ListBody) : Except String (List Movie) :=
  match net with
  | .notOk status _ => .error ("HTTP error! status: " ++ toString status)
  | .ok data => .ok data.results

/-- C10 counterexample: when the error body supplies a `status_message`,
`fetchDirect` still fails with the generic HTTP-status message, while the
cached path's network step (`httpErrorMessage`, Api.mjs lines 88–93) would
surface the server-provided message — the two error behaviors differ. -/
theorem fetchDirect_drops_status_message :
    fetchDirect (.notOk 404
        (some "The resource you requested could not be found."))
      = .error "HTTP error! status: 404" ∧
    httpErrorMessage 404
        (some "The resource you requested could not be found.")
      = "The resource you requested could not be found." ∧
    ("HTTP error! status: 404" : String)
      ≠ "The resource you requested could not be found." := by
  exact ⟨rfl, rfl, by decide⟩

/-- C10 amended: for every non-OK response, `fetchDirect` fails with the
generic HTTP-status message, ignoring any server-provided `status_message`;
the cached path's network step instead uses the server message when the body
supplies a non-empty one. On success `fetchDirect` returns the `results`
list. -/
theorem fetchDirect_error_behavior (status : Nat) (msg : Option String)
    (movies : List Movie) :
    fetchDirect (.notOk status msg)
      = .error ("HTTP error! status: " ++ toString status) ∧
    (fetchAndStore "k" [] (.notOk status msg) 0 false).1
      = .error (httpErrorMessage status msg) ∧
    fetchDirect (.ok ⟨movies⟩) = .ok movies := by
  exact ⟨rfl, rfl, rfl⟩

/-- JS `String.prototype.localeCompare`, modelled as plain lexicographic
string comparison: negative, zero or positive. -/
def localeCompare (a b : String) : Int :=
  if a < b then -1 else if b < a then 1 else 0

/-- JS `Array.prototype.sort` with a numeric comparator `cmp`: `a` precedes
`b` when `cmp a b < 0`, and equal elements keep their input order (the sort
is stable). Modelled as a stable insertion sort on the relation
`cmp a b ≤ 0`. -/
def jsSort (cmp : Movie → Movie → Int) (movies : List Movie) : List Movie :=
  List.insertionSort (fun a b => cmp a b ≤ 0) movies

/-- `sortMovies` (App.mjs lines 306–322): the contents of the sorted array
for each sort key; an unrecognized key returns the array unchanged. -/
def sortMovies (movies : List Movie) (sortBy : String) : List Movie :=
  match sortBy with
  | "popularity.desc" => jsSort (fun a b => b.popularity - a.popularity) movies
  | "vote_average.desc" =>
      jsSort (fun a b => b.vote_average - a.vote_average) movies
  | "release_date.desc" =>
      jsSort (fun a b => b.release_date - a.release_date) movies
  | "title.asc" => jsSort (fun a b => localeCompare a.title b.title) movies
  | _ => movies

/-- A call `sortMovies(movies, sortBy)` in the source: `Array.prototype.sort`
sorts the receiver in place and returns it, so after the call the caller's
array holds the first component and the returned array is the second (in JS
they are one object). In the default branch the array is untouched. -/
def sortMoviesCall (movies : List Movie) (sortBy : String) :
    List Movie × List Movie :=
  (sortMovies movies sortBy, sortMovies movies sortBy)

/-- C6 counterexample: sorting by `popularity.desc` mutates the caller's
array — after the call the input array no longer holds its original order,
so the sort operation does not leave its input unmodified. -/
theorem sortMovies_mutates_input :
    (sortMoviesCall [⟨1, "A", 1, 0, 0⟩, ⟨2, "B", 2, 0, 0⟩]
        "popularity.desc").1
      ≠ [⟨1, "A", 1, 0, 0⟩, ⟨2, "B", 2, 0, 0⟩] := by
  decide

/-- C6 amended: the sort operation sorts the caller's array in place — the
array after the call holds exactly the returned ordering, which is a
permutation of the input — and for an unrecognized (including empty) sort
key it is a no-op: the array is returned unchanged, in input order. -/
theorem sortMovies_inPlace_noop (movies : List Movie) (sortBy : String) :
    (sortMoviesCall movies sortBy).1 = (sortMoviesCall movies sortBy).2 ∧
    (sortMovies movies sortBy).Perm movies ∧
    (sortBy ≠ "popularity.desc" → sortBy ≠ "vote_average.desc" →
      sortBy ≠ "release_date.desc" → sortBy ≠ "title.asc" →
      sortMoviesCall movies sortBy = (movies, movies)) := by
  refine ⟨rfl, ?_, ?_⟩
  · unfold sortMovies
    split
    · exact List.perm_insertionSort _ _
    · exact List.perm_insertionSort _ _
    · exact List.perm_insertionSort _ _
    · exact List.perm_insertionSort _ _
    · exact List.Perm.refl _
  · intro h1 h2 h3 h4
    unfold sortMoviesCall sortMovies
    split
    · exact absurd rfl h1
    · exact absurd rfl h2
    · exact absurd rfl h3
    · exact absurd rfl h4
    · rfl

/-- Witness for C6's amended theorem: the empty sort key is a no-op on a
concrete list. -/
theorem sortMovies_inPlace_noop_witness :
    sortMoviesCall [⟨1, "A", 1, 0, 0⟩, ⟨2, "B", 2, 0, 0⟩] ""
      = ([⟨1, "A", 1, 0, 0⟩, ⟨2, "B", 2, 0, 0⟩],
         [⟨1, "A", 1, 0, 0⟩, ⟨2, "B", 2, 0, 0⟩]) := by
  exact (sortMovies_inPlace_noop [⟨1, "A", 1, 0, 0⟩, ⟨2, "B", 2, 0, 0⟩]
    "").2.2 (by decide) (by decide) (by decide) (by decide)

/-- `new Set(arr)` keeps the first occurrence of each element, in insertion
order; `Array.from` of it returns exactly that order. -/
def dedupFirst : List String → List String
  | [] => []
  | x :: xs => x :: (dedupFirst xs).filter (· ≠ x)

/-- `loadFavorites` (Favorites.mjs lines 3–6): the persisted JSON array read
into a Set; an absent key gives the empty set. `stored` is the current value
under the favorites key, already parsed as a string array. -/
def loadFavorites (stored : Option (List String)) : List String :=
  match stored with
  | some arr => dedupFirst arr
  | none => []

/-- JS `Set.prototype.add`: append if absent (insertion order preserved). -/
def setAdd (s : List String) (x : String) : List String :=
  if x ∈ s then s else s ++ [x]

/-- JS `Set.prototype.delete`: remove the element if present. -/
def setDelete (s : List String) (x : String) : List String :=
  s.filter (· ≠ x)

/-- `addFavorite` (Favorites.mjs lines 8–12): reload the persisted set, add
the id (`String(movieId)` is the identity — the id is already a string),
and persist `Array.from` of it. Returns the newly persisted array. -/
def addFavorite (stored : Option (List String)) (movieId : String) :
    List String :=
  setAdd (loadFavorites stored) movieId

/-- `removeFavorite` (Favorites.mjs lines 14–18): reload, delete, persist. -/
def removeFavorite (stored : Option (List String)) (movieId : String) :
    List String :=
  setDelete (loadFavorites stored) movieId

/-- `toggleFavorite` (App.mjs lines 328–342), state part: branch on the
in-memory set's membership, persist through Favorites.mjs, and mirror the
change on the in-memory set. Returns the new in-memory set and the new
persisted array. -/
def toggleFavorite (mem : List String) (stored : Option (List String))
    (movieId : String) : List String × List String :=
  if movieId ∈ mem then
    (setDelete mem movieId, removeFavorite stored movieId)
  else
    (setAdd mem movieId, addFavorite stored movieId)

theorem mem_dedupFirst (l : List String) (y : String) :
    y ∈ dedupFirst l ↔ y ∈ l := by
  induction l with
  | nil => simp [dedupFirst]
  | cons x xs ih =>
      by_cases hxy : y = x
      · subst hxy
        simp [dedupFirst]
      · simp [dedupFirst, hxy, List.mem_filter, ih]

theorem mem_setAdd (s : List String) (x y : String) :
    y ∈ setAdd s x ↔ y ∈ s ∨ y = x := by
  unfold setAdd
  by_cases hx : x ∈ s
  · simp only [hx, if_true]
    constructor
    · exact fun h => Or.inl h
    · rintro (h | h)
      · exact h
      · exact h ▸ hx
  · simp [hx]

theorem mem_setDelete (s : List String) (x y : String) :
    y ∈ setDelete s x ↔ y ∈ s ∧ y ≠ x := by
  simp [setDelete, List.mem_filter]

/-- C7 counterexample: toggling an id that is present but not last, twice,
restores membership but not the contents — the id moves to the end of both
the in-memory set's order and the persisted array, so the persisted store
does not return to its original contents. -/
theorem toggleFavorite_twice_reorders :
    (toggleFavorite
        (toggleFavorite ["101", "202"] (some ["101", "202"]) "101").1
        (some (toggleFavorite ["101", "202"] (some ["101", "202"]) "101").2)
        "101")
      = (["202", "101"], ["202", "101"]) ∧
    (["202", "101"] : List String) ≠ ["101", "202"] := by
  exact ⟨rfl, by decide⟩

/-- C7 amended: when the in-memory set and the persisted store agree, a
toggle makes exactly one membership change — it flips the toggled id (adds
if absent, removes if present, never a no-op) and leaves every other id's
membership unchanged, consistently in memory and in the store — and
toggling the same id twice restores the original membership of both (though
not necessarily the original element order). -/
theorem toggleFavorite_spec (mem : List String)
    (stored : Option (List String)) (movieId : String)
    (hconsist : ∀ x, x ∈ mem ↔ x ∈ loadFavorites stored) :
    ((movieId ∈ (toggleFavorite mem stored movieId).1) ↔ movieId ∉ mem) ∧
    ((movieId ∈ (toggleFavorite mem stored movieId).2) ↔ movieId ∉ mem) ∧
    (∀ y, y ≠ movieId →
      ((y ∈ (toggleFavorite mem stored movieId).1) ↔ y ∈ mem)) ∧
    (∀ y, y ≠ movieId →
      ((y ∈ (toggleFavorite mem stored movieId).2) ↔ y ∈ mem)) ∧
    (∀ y,
      ((y ∈ (toggleFavorite (toggleFavorite mem stored movieId).1
          (some (toggleFavorite mem stored movieId).2) movieId).1)
        ↔ y ∈ mem) ∧
      ((y ∈ (toggleFavorite (toggleFavorite mem stored movieId).1
          (some (toggleFavorite mem stored movieId).2) movieId).2)
        ↔ y ∈ mem)) := by
  by_cases hin : movieId ∈ mem
  · have hin2 : movieId ∈ loadFavorites stored := (hconsist movieId).mp hin
    have ht1 : toggleFavorite mem stored movieId
        = (setDelete mem movieId, setDelete (loadFavorites stored) movieId) :=
      by simp [toggleFavorite, hin, removeFavorite]
    have hnotin1 : movieId ∉ setDelete mem movieId := by
      simp [mem_setDelete]
    have ht2 : toggleFavorite (setDelete mem movieId)
        (some (setDelete (loadFavorites stored) movieId)) movieId
        = (setAdd (setDelete mem movieId) movieId,
           setAdd (dedupFirst (setDelete (loadFavorites stored) movieId))
             movieId) := by
      simp [toggleFavorite, hnotin1, addFavorite, loadFavorites]
    refine ⟨?_, ?_, ?_, ?_, ?_⟩
    · simp [ht1, mem_setDelete, hin]
    · simp [ht1, mem_setDelete, hin2, hin]
    · intro y hy
      simp [ht1, mem_setDelete, hy, hin]
    · intro y hy
      simp [ht1, mem_setDelete, hy, hconsist y]
    · intro y
      rw [ht1, ht2]
      by_cases hy : y = movieId
      · subst hy
        simp [mem_setAdd, hin, hin2]
      · simp [mem_setAdd, mem_dedupFirst, mem_setDelete, hy, hconsist y]
  · have hin2 : movieId ∉ loadFavorites stored :=
      fun h => hin ((hconsist movieId).mpr h)
    have ht1 : toggleFavorite mem stored movieId
        = (setAdd mem movieId, setAdd (loadFavorites stored) movieId) := by
      simp [toggleFavorite, hin, addFavorite]
    have hmem1 : movieId ∈ setAdd mem movieId := by
      simp [mem_setAdd]
    have ht2 : toggleFavorite (setAdd mem movieId)
        (some (setAdd (loadFavorites stored) movieId)) movieId
        = (setDelete (setAdd mem movieId) movieId,
           setDelete (dedupFirst (setAdd (loadFavorites stored) movieId))
             movieId) := by
      simp [toggleFavorite, hmem1, removeFavorite, loadFavorites]
    refine ⟨?_, ?_, ?_, ?_, ?_⟩
    · simp [ht1, mem_setAdd, hin]
    · simp [ht1, mem_setAdd, hin2, hin]
    · intro y hy
      simp [ht1, mem_setAdd, hy, hin]
    · intro y hy
      simp [ht1, mem_setAdd, hy, hconsist y]
    · intro y
      rw [ht1, ht2]
      by_cases hy : y = movieId
      · subst hy
        simp [mem_setDelete, hin, hin2]
      · simp [mem_setDelete, mem_dedupFirst, mem_setAdd, hy, hconsist y]

/-- Witness for C7's amended theorem: one concrete toggle flips the toggled
id's membership. -/
theorem toggleFavorite_spec_witness :
    ("101" ∈ (toggleFavorite ["101", "202"] (some ["101", "202"]) "101").1)
      ↔ "101" ∉ (["101", "202"] : List String) := by
  exact (toggleFavorite_spec ["101", "202"] (some ["101", "202"]) "101"
    (fun x => Iff.rfl)).1

/-- The characters `encodeURIComponent` leaves unescaped: ASCII letters,
digits, and `-` `_` `.` `!` `~` `*` `(` `)` and the apostrophe
(`Char.ofNat 39`). -/
def uriUnreserved (c : Char) : Bool :=
  (c.isAlpha && c.toNat < 128) || c.isDigit || c == '-' || c == '_' ||
    c == '.' || c == '!' || c == '~' || c == '*' || c == Char.ofNat 39 ||
    c == '(' || c == ')'

/-- The upper-case hex digit of `n < 16`. -/
def hexDigit (n : Nat) : Char :=
  if n < 10 then Char.ofNat (48 + n) else Char.ofNat (55 + n)

/-- The `%XX` escape of one byte. -/
def percentByte (b : Nat) : String :=
  String.mk ['%', hexDigit (b / 16 % 16), hexDigit (b % 16)]

/-- The UTF-8 bytes of one character. -/
def utf8Bytes (c : Char) : List Nat :=
  let n := c.toNat
  if n < 128 then [n]
  else if n < 2048 then [192 + n / 64, 128 + n % 64]
  else if n < 65536 then [224 + n / 4096, 128 + n / 64 % 64, 128 + n % 64]
  else [240 + n / 262144, 128 + n / 4096 % 64, 128 + n / 64 % 64,
        128 + n % 64]

/-- JS `encodeURIComponent`: unreserved characters pass through, every other
character is replaced by the `%XX` escapes of its UTF-8 bytes. -/
def encodeURIComponent (s : String) : String :=
  String.join (s.toList.map (fun c =>
    if uriUnreserved c then String.mk [c]
    else String.join ((utf8Bytes c).map percentByte)))

/-- `FilterState` — `this.currentFilters` in App.mjs: three strings read
from the filter dropdowns, empty when unset. -/
structure FilterState where
  genre : String
  year : String
  sort : String
deriving DecidableEq

/-- The request built by `fetchDiscoverMovies` (Api.mjs lines 159–170): the
`page` query parameter, and the filter query parameters in append order.
`rand` stands for `Math.floor(Math.random() * 10)`. -/
structure DiscoverRequest where
  page : Nat
  params : List (String × String)
deriving DecidableEq

/-- `fetchDiscoverMovies` (Api.mjs lines 159–170), request-building part:
with no active filter the page is `Math.floor(Math.random() * 10) + 1`,
otherwise page 1; each filter is appended to the query string only when
non-empty (JS falsiness of the empty string). -/
def fetchDiscoverMovies (filters : FilterState) (rand : Fin 10) :
    DiscoverRequest :=
  let page :=
    if filters.genre = "" ∧ filters.year = "" ∧ filters.sort = "" then
      rand.val + 1
    else 1
  { page := page
    params :=
      (if filters.genre ≠ "" then [("with_genres", filters.genre)] else [])
        ++ (if filters.year ≠ "" then
              [("primary_release_year", filters.year)] else [])
        ++ (if filters.sort ≠ "" then [("sort_by", filters.sort)] else []) }

/-- C4: with all three filters empty, the discover request carries no filter
query parameter and asks for page `rand + 1`, which ranges over 1–10 and is
a bijective image of the uniform `rand` (so the page is uniform over 1–10);
with any filter non-empty the page is 1 and the parameters are exactly the
non-empty filters. -/
theorem fetchDiscoverMovies_spec (filters : FilterState) (rand : Fin 10) :
    (filters.genre = "" ∧ filters.year = "" ∧ filters.sort = "" →
      (fetchDiscoverMovies filters rand).params = [] ∧
      (fetchDiscoverMovies filters rand).page = rand.val + 1 ∧
      1 ≤ (fetchDiscoverMovies filters rand).page ∧
      (fetchDiscoverMovies filters rand).page ≤ 10) ∧
    (¬(filters.genre = "" ∧ filters.year = "" ∧ filters.sort = "") →
      (fetchDiscoverMovies filters rand).page = 1) ∧
    ((("with_genres", filters.genre)
        ∈ (fetchDiscoverMovies filters rand).params) ↔ filters.genre ≠ "") ∧
    ((("primary_release_year", filters.year)
        ∈ (fetchDiscoverMovies filters rand).params) ↔ filters.year ≠ "") ∧
    ((("sort_by", filters.sort)
        ∈ (fetchDiscoverMovies filters rand).params) ↔ filters.sort ≠ "") ∧
    (∀ p ∈ (fetchDiscoverMovies filters rand).params,
      p = ("with_genres", filters.genre) ∨
      p = ("primary_release_year", filters.year) ∨
      p = ("sort_by", filters.sort)) ∧
    (∀ r1 r2 : Fin 10,
      (fetchDiscoverMovies ⟨"", "", ""⟩ r1).page
        = (fetchDiscoverMovies ⟨"", "", ""⟩ r2).page → r1 = r2) := by
  refine ⟨?_, ?_, ?_, ?_, ?_, ?_, ?_⟩
  · rintro ⟨hg, hy, hs⟩
    constructor
    · simp [fetchDiscoverMovies, hg, hy, hs]
    · refine ⟨?_, ?_, ?_⟩
      · simp [fetchDiscoverMovies, hg, hy, hs]
      · simp [fetchDiscoverMovies, hg, hy, hs]
      · simp only [fetchDiscoverMovies, hg, hy, hs]
        simp only [and_self, if_true]
        omega
  · intro h
    simp [fetchDiscoverMovies, h]
  · by_cases hg : filters.genre = "" <;>
      by_cases hy : filters.year = "" <;>
      by_cases hs : filters.sort = "" <;>
      simp [fetchDiscoverMovies, hg, hy, hs]
  · by_cases hg : filters.genre = "" <;>
      by_cases hy : filters.year = "" <;>
      by_cases hs : filters.sort = "" <;>
      simp [fetchDiscoverMovies, hg, hy, hs]
  · by_cases hg : filters.genre = "" <;>
      by_cases hy : filters.year = "" <;>
      by_cases hs : filters.sort = "" <;>
      simp [fetchDiscoverMovies, hg, hy, hs]
  · intro p hp
    simp only [fetchDiscoverMovies, List.mem_append] at hp
    rcases hp with (hp | hp) | hp
    · left
      by_cases hg : filters.genre = "" <;> simp [hg] at hp
      simp [hp]
    · right; left
      by_cases hy : filters.year = "" <;> simp [hy] at hp
      simp [hp]
    · right; right
      by_cases hs : filters.sort = "" <;> simp [hs] at hp
      simp [hp]
  · intro r1 r2 h
    simp only [fetchDiscoverMovies] at h
    simp at h
    exact Fin.ext h

/-- Witness for C4: the two scenario inputs — no filters with `rand = 4`
gives page 5 and no parameters; all three filters set gives page 1 with all
three parameters present. -/
theorem fetchDiscoverMovies_spec_witness :
    (fetchDiscoverMovies ⟨"", "", ""⟩ ⟨4, by omega⟩).params = [] ∧
    (fetchDiscoverMovies ⟨"", "", ""⟩ ⟨4, by omega⟩).page = 5 ∧
    (fetchDiscoverMovies ⟨"28", "2020", "popularity.desc"⟩ ⟨4, by omega⟩).page
      = 1 ∧
    (("with_genres", "28")
      ∈ (fetchDiscoverMovies ⟨"28", "2020", "popularity.desc"⟩
          ⟨4, by omega⟩).params) ∧
    (("primary_release_year", "2020")
      ∈ (fetchDiscoverMovies ⟨"28", "2020", "popularity.desc"⟩
          ⟨4, by omega⟩).params) ∧
    (("sort_by", "popularity.desc")
      ∈ (fetchDiscoverMovies ⟨"28", "2020", "popularity.desc"⟩
          ⟨4, by omega⟩).params) := by
  have hempty := fetchDiscoverMovies_spec ⟨"", "", ""⟩ ⟨4, by omega⟩
  have hfull := fetchDiscoverMovies_spec ⟨"28", "2020", "popularity.desc"⟩
    ⟨4, by omega⟩
  have he := hempty.1 ⟨rfl, rfl, rfl⟩
  refine ⟨he.1, ?_, ?_, ?_, ?_, ?_⟩
  · rw [he.2.1]
  · exact hfull.2.1 (by simp)
  · exact hfull.2.2.1.mpr (by simp)
  · exact hfull.2.2.2.1.mpr (by simp)
  · exact hfull.2.2.2.2.1.mpr (by simp)

/-- `ViewMode` — `this.currentView` in App.mjs. -/
inductive ViewMode where
  | discover
  | search
  | favorites
deriving DecidableEq

/-- The controller state owned by `App` (App.mjs lines 16–25), restricted to
the fields the verified intents read or write. -/
structure AppState where
  favoritesSet : List String
  currentFilters : FilterState
  searchQuery : String
  currentView : ViewMode
deriving DecidableEq

/-- What `handleSearch` hands to the rendering layer. -/
inductive SearchRender where
  | results (movies : List Movie)
  | failed (msg : String)
  | resetToDiscover
deriving DecidableEq

/-- `clearAllFilters` (App.mjs lines 289–298), state part: empty query,
all-empty filters, discover view (the discover fetch re-run is signalled by
`SearchRender.resetToDiscover` on the search path). -/
def clearAllFilters (st : AppState) : AppState :=
  { st with searchQuery := "", currentFilters := ⟨"", "", ""⟩,
            currentView := .discover }

/-- The request built by `fetchSearchMovies` (Api.mjs lines 176–183):
percent-encoded query text, page fixed at 1, plus `primary_release_year`
when the filter year is non-empty. Only `year` is destructured from the
filters — genre and sort are never sent to the search endpoint. -/
structure SearchRequest where
  query : String
  page : Nat
  params : List (String × String)
deriving DecidableEq

/-- `fetchSearchMovies` (Api.mjs lines 176–183), request-building part. -/
def fetchSearchMovies (query : String) (filters : FilterState) :
    SearchRequest :=
  { query := encodeURIComponent query
    page := 1
    params :=
      if filters.year ≠ "" then [("primary_release_year", filters.year)]
      else [] }

/-- JS `String.prototype.trim`: drop leading and trailing whitespace,
modelled over the character list. -/
def jsTrim (s : String) : String :=
  String.mk
    (((s.toList.dropWhile Char.isWhitespace).reverse.dropWhile
        Char.isWhitespace).reverse)

/-- `handleSearch` (App.mjs lines 216–256): trim the query; an empty result
is a full reset; otherwise switch to the search view, fetch (the settled
outcome `net` of `fetchDirect` on the `fetchSearchMovies` request), sort the
returned list client-side with the current sort key, and hand the sorted
list to the rendering layer; a fetch failure shows a scoped error. -/
def handleSearch (st : AppState) (query : String)
    (net : Except String (List Movie)) : AppState × SearchRender :=
  let q := jsTrim query
  if q = "" then
    (clearAllFilters { st with searchQuery := q }, .resetToDiscover)
  else
    let st1 := { st with searchQuery := q, currentView := .search }
    match net with
    | .ok movies =>
        (st1, .results (sortMovies movies st1.currentFilters.sort))
    | .error _ => (st1, .failed "Search failed. Please try again.")

/-- C5: for a non-empty (after trimming) search query, the search request
uses the percent-encoded query at page 1, includes the FilterState's year as
`primary_release_year` exactly when it is non-empty and sends no other
filter parameter (never genre or sort), and the controller switches to the
search view and hands the fetched list to the rendering layer sorted by the
current sort key. -/
theorem handleSearch_spec (st : AppState) (query : String)
    (movies : List Movie) (hq : jsTrim query ≠ "") :
    (fetchSearchMovies (jsTrim query) st.currentFilters).page = 1 ∧
    (fetchSearchMovies (jsTrim query) st.currentFilters).query
      = encodeURIComponent (jsTrim query) ∧
    ((("primary_release_year", st.currentFilters.year)
        ∈ (fetchSearchMovies (jsTrim query) st.currentFilters).params)
      ↔ st.currentFilters.year ≠ "") ∧
    (∀ p ∈ (fetchSearchMovies (jsTrim query) st.currentFilters).params,
      p = ("primary_release_year", st.currentFilters.year)) ∧
    (handleSearch st query (.ok movies)).1.currentView = .search ∧
    (handleSearch st query (.ok movies)).2
      = .results (sortMovies movies st.currentFilters.sort) := by
  refine ⟨rfl, rfl, ?_, ?_, ?_, ?_⟩
  · by_cases hy : st.currentFilters.year = "" <;>
      simp [fetchSearchMovies, hy]
  · intro p hp
    by_cases hy : st.currentFilters.year = "" <;>
      simp [fetchSearchMovies, hy] at hp
    exact hp
  · simp [handleSearch, hq]
  · simp [handleSearch, hq]

/-- Witness for C5: the scenario query `"batman"` with year filter `"2022"`
— encoded query, page 1, the year parameter present, and the result list
handed over sorted by the active sort key. -/
theorem handleSearch_spec_witness :
    (fetchSearchMovies "batman" ⟨"", "2022", "popularity.desc"⟩).page = 1 ∧
    (fetchSearchMovies "batman" ⟨"", "2022", "popularity.desc"⟩).query
      = encodeURIComponent "batman" ∧
    (("primary_release_year", "2022")
      ∈ (fetchSearchMovies "batman"
          ⟨"", "2022", "popularity.desc"⟩).params) ∧
    (handleSearch ⟨[], ⟨"", "2022", "popularity.desc"⟩, "", .discover⟩
        "batman" (.ok [])).2
      = .results (sortMovies [] "popularity.desc") := by
  have h := handleSearch_spec
    ⟨[], ⟨"", "2022", "popularity.desc"⟩, "", .discover⟩ "batman" []
    (by decide)
  exact ⟨h.1, h.2.1, h.2.2.1.mpr (by decide), h.2.2.2.2.2⟩

/-- What `showFavorites` hands to the rendering layer. -/
inductive FavView where
  | emptyState
  | displayed (movies : List Movie)
  | errored (msg : String)
deriving DecidableEq

/-- `Promise.all` over the already-settled per-id outcomes: all-or-nothing —
the list of results in order if every promise fulfilled, otherwise a
rejection. -/
def promiseAll : List (Except String Movie) → Except String (List Movie)
  | [] => .ok []
  | .error e :: _ => .error e
  | .ok m :: rs =>
      match promiseAll rs with
      | .ok ms => .ok (m :: ms)
      | .error e => .error e

/-- `showFavorites` (App.mjs lines 347–388), data part: an empty favorites
set short-circuits to the empty state with no fetch; otherwise one
`api.fetchMovieById` per favorited id (outcome `fetch id`), joined with
`Promise.all`; on success the details are sorted with the current sort key
and displayed, on any failure a scoped error is shown instead. Returns the
rendered view and the number of detail fetches issued. -/
def showFavorites (favs : List String) (fetch : String → Except String Movie)
    (sortKey : String) : FavView × Nat :=
  if favs.isEmpty then (.emptyState, 0)
  else
    match promiseAll (favs.map fetch) with
    | .ok movies => (.displayed (sortMovies movies sortKey), favs.length)
    | .error _ => (.errored "Could not load your favorites.", favs.length)

/-- If any settled outcome in the list is a rejection, `promiseAll`
rejects. -/
theorem promiseAll_error_of_mem {l : List (Except String Movie)} {e : String}
    (hx : Except.error e ∈ l) : ∃ msg, promiseAll l = .error msg := by
  induction l with
  | nil => simp at hx
  | cons r rs ih =>
      rcases List.mem_cons.mp hx with h | h
      · subst h
        exact ⟨e, rfl⟩
      · rcases ih h with ⟨msg, hmsg⟩
        cases r with
        | ok m => exact ⟨msg, by simp [promiseAll, hmsg]⟩
        | error e2 => exact ⟨e2, rfl⟩

/-- C8: with an empty FavoritesSet, the show-favorites intent produces the
empty-state signal and performs no fetch; with a non-empty set it issues
exactly one detail fetch per favorited id, and the join is all-or-nothing:
if any single detail fetch fails the result is the scoped error (no partial
list is displayed), and only when every fetch succeeds is the full, sorted
list displayed. -/
theorem showFavorites_spec (favs : List String)
    (fetch : String → Except String Movie) (sortKey : String) :
    (favs = [] → showFavorites favs fetch sortKey = (.emptyState, 0)) ∧
    (favs ≠ [] →
      (showFavorites favs fetch sortKey).2 = favs.length) ∧
    (∀ id e, id ∈ favs → fetch id = .error e →
      (showFavorites favs fetch sortKey).1
        = .errored "Could not load your favorites.") ∧
    (∀ movies, favs ≠ [] → promiseAll (favs.map fetch) = .ok movies →
      (showFavorites favs fetch sortKey).1
        = .displayed (sortMovies movies sortKey)) := by
  refine ⟨?_, ?_, ?_, ?_⟩
  · intro h
    subst h
    rfl
  · intro h
    have hne : favs.isEmpty = false := by
      simpa [List.isEmpty_iff] using h
    unfold showFavorites
    rw [hne]
    simp only [Bool.false_eq_true, if_false]
    cases hall : promiseAll (favs.map fetch) <;> simp
  · intro id e hid hfe
    have hne : favs.isEmpty = false := by
      simp [List.isEmpty_iff]
      intro h
      subst h
      simp at hid
    have hmem : Except.error e ∈ favs.map fetch :=
      hfe ▸ List.mem_map_of_mem fetch hid
    rcases promiseAll_error_of_mem hmem with ⟨msg, hmsg⟩
    unfold showFavorites
    rw [hne]
    simp [hmsg]
  · intro movies hne' hok
    have hne : favs.isEmpty = false := by
      simpa [List.isEmpty_iff] using hne'
    unfold showFavorites
    rw [hne]
    simp [hok]

/-- Witness for C8: the scenario FavoritesSet `{"101", "202"}` where the
fetch for `"202"` fails — the result is the scoped error, and two fetches
were issued. -/
theorem showFavorites_spec_witness :
    (showFavorites ["101", "202"]
        (fun id => if id = "202" then .error "HTTP error! status: 404"
                   else .ok ⟨101, "A", 0, 0, 0⟩) "").1
      = .errored "Could not load your favorites." ∧
    (showFavorites ["101", "202"]
        (fun id => if id = "202" then .error "HTTP error! status: 404"
                   else .ok ⟨101, "A", 0, 0, 0⟩) "").2 = 2 := by
  have h := showFavorites_spec ["101", "202"]
    (fun id => if id = "202" then .error "HTTP error! status: 404"
               else .ok ⟨101, "A", 0, 0, 0⟩) ""
  exact ⟨h.2.2.1 "202" "HTTP error! status: 404" (by decide) (by rfl),
         h.2.1 (by decide)⟩

/-- A video object from the movie-videos endpoint, the fields read by the
trailer selection. -/
structure Video where
  site : String
  type : String
  official : Bool
  key : String
deriving DecidableEq

/-- The first `find` predicate (App.mjs lines 410–415): an official YouTube
trailer. -/
def isOfficialTrailer (v : Video) : Bool :=
  v.site == "YouTube" && v.type == "Trailer" && v.official

/-- The second `find` predicate (App.mjs lines 416–419): any YouTube
trailer, official or not. -/
def isYouTubeTrailer (v : Video) : Bool :=
  v.site == "YouTube" && v.type == "Trailer"

/-- Trailer selection in `showMovieDetails` (App.mjs lines 409–420):
`find(official YouTube trailer) || find(YouTube trailer) || null`. -/
def selectTrailer (videos : List Video) : Option Video :=
  (videos.find? isOfficialTrailer).orElse
    (fun _ => videos.find? isYouTubeTrailer)

/-- A successful `find?` splits the list at the first match. -/
theorem find?_eq_some_split {α : Type} (p : α → Bool) (l : List α) (v : α)
    (h : l.find? p = some v) :
    ∃ l1 l2, l = l1 ++ v :: l2 ∧ p v = true ∧ ∀ w ∈ l1, p w = false := by
  induction l with
  | nil => simp at h
  | cons a l ih =>
      by_cases ha : p a
      · rw [List.find?_cons_of_pos _ ha] at h
        obtain rfl : a = v := by injection h
        exact ⟨[], l, rfl, ha, by simp⟩
      · rw [List.find?_cons_of_neg _ (by simpa using ha)] at h
        rcases ih h with ⟨l1, l2, hl, hv, hl1⟩
        refine ⟨a :: l1, l2, by rw [hl, List.cons_append], hv, ?_⟩
        intro w hw
        rcases List.mem_cons.mp hw with rfl | hw
        · simpa using ha
        · exact hl1 w hw

/-- C9: the trailer is selected in strict priority order — if the list has
an official YouTube trailer, the first such video is selected; otherwise, if
it has any YouTube trailer, the first such video is selected regardless of
the official flag; otherwise no trailer is selected. -/
theorem selectTrailer_priority (videos : List Video) :
    (∃ l1 v l2, videos = l1 ++ v :: l2 ∧ isOfficialTrailer v = true ∧
      (∀ w ∈ l1, isOfficialTrailer w = false) ∧
      selectTrailer videos = some v) ∨
    ((∀ w ∈ videos, isOfficialTrailer w = false) ∧
      ∃ l1 v l2, videos = l1 ++ v :: l2 ∧ isYouTubeTrailer v = true ∧
        (∀ w ∈ l1, isYouTubeTrailer w = false) ∧
        selectTrailer videos = some v) ∨
    ((∀ w ∈ videos, isYouTubeTrailer w = false) ∧
      selectTrailer videos = none) := by
  cases hoff : videos.find? isOfficialTrailer with
  | some v =>
      left
      rcases find?_eq_some_split _ _ _ hoff with ⟨l1, l2, hl, hv, hl1⟩
      exact ⟨l1, v, l2, hl, hv, hl1,
        by simp [selectTrailer, hoff, Option.orElse]⟩
  | none =>
      have hnone : ∀ w ∈ videos, isOfficialTrailer w = false := by
        intro w hw
        simpa using List.find?_eq_none.mp hoff w hw
      cases hyt : videos.find? isYouTubeTrailer with
      | some v =>
          right; left
          rcases find?_eq_some_split _ _ _ hyt with ⟨l1, l2, hl, hv, hl1⟩
          exact ⟨hnone, l1, v, l2, hl, hv, hl1,
            by simp [selectTrailer, hoff, hyt, Option.orElse]⟩
      | none =>
          right; right
          refine ⟨?_, by simp [selectTrailer, hoff, hyt, Option.orElse]⟩
          intro w hw
          simpa using List.find?_eq_none.mp hyt w hw

end MovieFlix
